import Mathlib

/-!
Shallow embedding of `src/public/scripts/script.js` (the Veloura landing
page behaviour layer): the `BaseComponent` state container, the `Cart`,
the `Notification` centre, the `FormValidator`, and the price
normalisation performed by `VelouraApp.handleAddToCart`.

Conventions of the embedding:
* JS numbers are modelled as `Option ℚ`, with `none` playing the role of
  `NaN`; `+` and `*` propagate `NaN` exactly as IEEE arithmetic does on
  the operations this code performs.  Binary64 rounding and the
  `Infinity` literal are outside the model: every price on the page is a
  short finite decimal, and no claim depends on rounding.
* JS arrays become Lean lists, JS objects become association lists or
  `String → Option _` maps, and in-place mutation becomes explicit state
  passing.  Where aliasing itself is the subject (the shallow copy made
  by `getState`), array objects are modelled by explicit heap addresses.
* `setTimeout` callbacks (the notification auto-removal timer) are
  modelled as the later, explicit call of the scheduled function.
-/

/-- A JS number: `some q` is the finite value `q`, `none` is `NaN`. -/
abbrev JsNum := Option ℚ

/-- JS `+` on numbers: `NaN` absorbs. -/
def jadd : JsNum → JsNum → JsNum
  | some a, some b => some (a + b)
  | _, _ => none

/-- JS `*` on numbers: `NaN` absorbs (this code never multiplies `Infinity`). -/
def jmul : JsNum → JsNum → JsNum
  | some a, some b => some (a * b)
  | _, _ => none

/-- Decimal digit value of a character. -/
def digitVal (c : Char) : ℕ := c.toNat - 48

/-- Consume a maximal run of decimal digits, returning the accumulated
value, the number of digits consumed so far, and the rest of the input. -/
def parseDigitsAux : ℕ → ℕ → List Char → ℕ × ℕ × List Char
  | acc, n, [] => (acc, n, [])
  | acc, n, c :: cs =>
    if c.isDigit then parseDigitsAux (10 * acc + digitVal c) (n + 1) cs
    else (acc, n, c :: cs)

/-- Whether the input starts with a decimal digit. -/
def firstIsDigit : List Char → Bool
  | c :: _ => c.isDigit
  | [] => false

/-- Optionally signed digit run for a float exponent; `0` when no digit
follows (JS `parseFloat` then stops before the `e`). -/
def parseSignedExponent : List Char → ℤ
  | '+' :: r => if firstIsDigit r then ((parseDigitsAux 0 0 r).1 : ℤ) else 0
  | '-' :: r => if firstIsDigit r then -((parseDigitsAux 0 0 r).1 : ℤ) else 0
  | r => if firstIsDigit r then ((parseDigitsAux 0 0 r).1 : ℤ) else 0

/-- Exponent marker `e`/`E` followed by an optionally signed digit run. -/
def parseExponentPart : List Char → ℤ
  | c :: r => if c = 'e' ∨ c = 'E' then parseSignedExponent r else 0
  | [] => 0

/-- The whitespace characters JS `parseFloat` skips before the number. -/
def jsWhitespace (c : Char) : Bool := c = ' ' ∨ c = '\t' ∨ c = '\n' ∨ c = '\r'

/-- Model of JS `parseFloat` on its decimal fragment: skip leading
whitespace, an optional sign, then the longest prefix of the form
`digits [. digits] [e/E signed-digits]`; at least one mantissa digit is
required, otherwise the result is `NaN` (`none`).  Trailing characters
are ignored, exactly as in JS. -/
def parseFloatJs (s : String) : Option ℚ :=
  let cs0 := s.data.dropWhile jsWhitespace
  let sgn : ℚ := match cs0 with | '-' :: _ => -1 | _ => 1
  let cs1 := match cs0 with | '-' :: r => r | '+' :: r => r | r => r
  match parseDigitsAux 0 0 cs1 with
  | (ip, ni, cs2) =>
    match cs2 with
    | '.' :: r =>
      match parseDigitsAux 0 0 r with
      | (fp, nf, cs3) =>
        if ni + nf = 0 then none
        else some (sgn * ((ip : ℚ) + (fp : ℚ) / ((10 : ℚ) ^ nf)) *
          (10 : ℚ) ^ (parseExponentPart cs3))
    | _ =>
      if ni = 0 then none
      else some (sgn * (ip : ℚ) * (10 : ℚ) ^ (parseExponentPart cs2))

/-- `String(productPrice).replace(/[^0-9.]/g, '')` from
`VelouraApp.handleAddToCart`: keep only ASCII digits and dots. -/
def stripPrice (s : String) : String :=
  String.mk (s.data.filter (fun c => c.isDigit ∨ c = '.'))

/-- The product object `handleAddToCart` builds and passes to `Cart.addItem`. -/
structure Product where
  name : String
  price : String
deriving DecidableEq, Repr

/-- `const product = { name: productName, price: priceClean }` in
`VelouraApp.handleAddToCart`. -/
def mkProduct (productName productPriceText : String) : Product :=
  { name := productName, price := stripPrice productPriceText }

/-- A cart line item: the spread product plus a `quantity` field. -/
structure CartItem where
  name : String
  price : String
  quantity : ℕ
deriving DecidableEq, Repr

/-- The `Cart`'s own fields (`this.items`, `this.totalPrice`). -/
structure CartState where
  items : List CartItem
  totalPrice : JsNum
deriving DecidableEq, Repr

/-- A freshly constructed `Cart`: no items, total `0`. -/
def freshCart : CartState := { items := [], totalPrice := some 0 }

/-- `Cart.calculateTotal`:
`items.reduce((total, item) => total + parseFloat(item.price) * item.quantity, 0)`. -/
def calculateTotal (items : List CartItem) : JsNum :=
  items.foldl
    (fun total item => jadd total (jmul (parseFloatJs item.price) (some (item.quantity : ℚ))))
    (some 0)

/-- `existingItem.quantity += 1`: `Array.prototype.find` returns the first
item with the given name and `addItem` mutates that one in place. -/
def bumpFirst (n : String) : List CartItem → List CartItem
  | [] => []
  | item :: rest =>
    if item.name = n then { item with quantity := item.quantity + 1 } :: rest
    else item :: bumpFirst n rest

/-- `Cart.addItem(product)`: bump the first item with the same name if one
exists, otherwise append `{ ...product, quantity: 1 }`; then recompute the
total.  (`setState` republishes `items`/`totalPrice`, which the cart keeps
in its own fields; the snapshot content is these same two fields.) -/
def addItem (c : CartState) (product : Product) : CartState :=
  let items :=
    if (c.items.find? (fun item => item.name == product.name)).isSome then
      bumpFirst product.name c.items
    else
      c.items ++ [{ name := product.name, price := product.price, quantity := 1 }]
  { items := items, totalPrice := calculateTotal items }

/-- `Cart.removeItem(productName)`: keep the items whose name differs. -/
def removeItem (c : CartState) (productName : String) : CartState :=
  let items := c.items.filter (fun item => item.name != productName)
  { items := items, totalPrice := calculateTotal items }

/-- `Cart.clearCart()`: empty items, total `0`. -/
def clearCart (_c : CartState) : CartState :=
  { items := [], totalPrice := some 0 }

/-- `Cart.getItemCount()`: `items.reduce((count, item) => count + item.quantity, 0)`. -/
def getItemCount (c : CartState) : ℕ :=
  c.items.foldl (fun count item => count + item.quantity) 0

/-- A cart mutation from the claim C2 alphabet: one `addItem` or `removeItem` call. -/
inductive CartOp where
  | add : Product → CartOp
  | remove : String → CartOp
deriving DecidableEq, Repr

/-- Run one cart operation. -/
def applyOp (c : CartState) : CartOp → CartState
  | .add p => addItem c p
  | .remove n => removeItem c n

/-- Run a finite sequence of cart operations. -/
def runOps (c : CartState) (ops : List CartOp) : CartState :=
  ops.foldl applyOp c

/-- The documented cart invariant: at most one item per distinct name
(the name list has no duplicates) and every quantity is at least 1. -/
def CartInv (items : List CartItem) : Prop :=
  (items.map (fun item => item.name)).Nodup ∧ ∀ item ∈ items, 1 ≤ item.quantity

instance (items : List CartItem) : Decidable (CartInv items) := by
  unfold CartInv; infer_instance

/-- A notification record as built by `Notification.show`: the `id` is the
value of `Date.now()` at creation (milliseconds), and `timestamp`
(`new Date()`) reads the same clock. -/
structure NotificationRecord where
  id : ℕ
  message : String
  type : String
  timestamp : ℕ
deriving DecidableEq, Repr

/-- The `Notification` component's own field (`this.notifications`). -/
structure NotificationState where
  notifications : List NotificationRecord
deriving DecidableEq, Repr

/-- A freshly constructed `Notification` component. -/
def notifInit : NotificationState := { notifications := [] }

/-- The record literal `Notification.show` pushes, with `now` the value of
`Date.now()` during that call. -/
def mkNotification (now : ℕ) (message type_ : String) : NotificationRecord :=
  { id := now, message := message, type := type_, timestamp := now }

/-- `Notification.show(message, type, duration)`: push a new record.  The
DOM toast and the `setTimeout(() => this.remove(id), duration)` timer are
external effects; the timer is modelled as a later explicit call of
`removeNotification` with the same id. -/
def showNotification (st : NotificationState) (now : ℕ) (message type_ : String)
    (_duration : ℕ) : NotificationState :=
  { notifications := st.notifications ++ [mkNotification now message type_] }

/-- `Notification.success` wrapper: severity fixed to `"success"`. -/
def success (st : NotificationState) (now : ℕ) (message : String) (d : ℕ) :
    NotificationState :=
  showNotification st now message "success" d

/-- `Notification.error` wrapper: severity fixed to `"error"`. -/
def error (st : NotificationState) (now : ℕ) (message : String) (d : ℕ) :
    NotificationState :=
  showNotification st now message "error" d

/-- `Notification.warning` wrapper: severity fixed to `"warning"`. -/
def warning (st : NotificationState) (now : ℕ) (message : String) (d : ℕ) :
    NotificationState :=
  showNotification st now message "warning" d

/-- `Notification.info` wrapper: severity fixed to `"info"`. -/
def info (st : NotificationState) (now : ℕ) (message : String) (d : ℕ) :
    NotificationState :=
  showNotification st now message "info" d

/-- `Notification.remove(notificationId)`:
`this.notifications = this.notifications.filter(n => n.id !== notificationId)`. -/
def removeNotification (st : NotificationState) (notificationId : ℕ) : NotificationState :=
  { notifications := st.notifications.filter (fun n => n.id != notificationId) }

/-- `BaseComponent` with value type `V` for snapshot entries and `O` for
observer identities: `this.state` is a string-keyed object, `this.observers`
the subscription list in registration order. -/
structure BaseComponent (V O : Type) where
  state : String → Option V
  observers : List O

/-- `BaseComponent.subscribe(observer)`: `this.observers.push(observer)`. -/
def subscribe {V O : Type} (c : BaseComponent V O) (observer : O) : BaseComponent V O :=
  { c with observers := c.observers ++ [observer] }

/-- `BaseComponent.notify()`: `this.observers.forEach(observer => observer(this.state))`
— the list of calls made, in order: each observer paired with the snapshot
it receives. -/
def notify {V O : Type} (c : BaseComponent V O) : List (O × (String → Option V)) :=
  c.observers.map (fun ob => (ob, c.state))

/-- `BaseComponent.setState(newState)`:
`this.state = { ...this.state, ...newState }; this.notify()` — returns the
updated component and the observer calls `notify` performs. -/
def setState {V O : Type} (c : BaseComponent V O) (newState : String → Option V) :
    BaseComponent V O × List (O × (String → Option V)) :=
  let merged : String → Option V :=
    fun k => match newState k with | some v => some v | none => c.state k
  let c2 := { c with state := merged }
  (c2, notify c2)

/-- A JS value stored in a component snapshot, for the part of the model
where aliasing matters: a primitive number, or a reference to an array
object on the heap. -/
inductive JVal where
  | num : ℚ → JVal
  | arrRef : ℕ → JVal
deriving DecidableEq, Repr

/-- The heap of array objects, addressed by natural numbers; here the cart
scenario only needs arrays of cart items. -/
def Heap := ℕ → List CartItem

/-- `BaseComponent.getState()`: `return { ...this.state }` — a fresh
top-level object whose keys map to the very same values; a nested array
value is copied as its reference, not cloned. -/
def getStateCopy (state : String → Option JVal) : String → Option JVal :=
  fun k => state k

/-- `Array.prototype.push` on the array object at address `a`: in-place
mutation of that one heap cell. -/
def heapPush (h : Heap) (a : ℕ) (x : CartItem) : Heap :=
  fun b => if b = a then h b ++ [x] else h b

/-- What a later reader of the component's snapshot observes as the cart's
items: dereference the `items` entry.  `Cart.addItem` publishes
`{ items: this.items, ... }`, so the snapshot's `items` entry is a
reference to the cart's own live array. -/
def readItems (h : Heap) (state : String → Option JVal) : List CartItem :=
  match state "items" with
  | some (JVal.arrRef a) => h a
  | _ => []

/-- Concrete cart component snapshot for the aliasing scenario: the cart
has published its live items array (at address 0) and a total of 0. -/
def cartSnap0 : String → Option JVal :=
  fun k => if k = "items" then some (JVal.arrRef 0) else
    if k = "totalPrice" then some (JVal.num 0) else none

/-- Concrete heap for the aliasing scenario: every address holds the empty
array. -/
def emptyHeap : Heap := fun _ => []

/-- A concrete cart item used as mutation payload in the aliasing scenario. -/
def lampItem : CartItem := { name := "Lamp", price := "5", quantity := 1 }

/-- Concrete component for witness statements: snapshot maps `x` to 1,
observers 0 and 1 registered in that order. -/
def demoComponent : BaseComponent ℕ ℕ :=
  { state := fun k => if k = "x" then some 1 else none, observers := [0, 1] }

/-- Concrete partial update for witness statements: sets key `y` to 2. -/
def demoUpdate : String → Option ℕ := fun k => if k = "y" then some 2 else none

/-- One step of `FormValidator.validate`'s error-object assignment
`errors[fieldName] = msg`: overwrite the entry if the key is present
(JS object keys are unique), otherwise append it in insertion order. -/
def setErr : List (String × String) → String → String → List (String × String)
  | [], k, v => [(k, v)]
  | p :: t, k, v => if p.1 = k then (k, v) :: t else p :: setErr t k v

/-- Lookup of `errors[k]` in the association-list model of the errors object. -/
def lookupField (l : List (String × String)) (k : String) : Option String :=
  (l.find? (fun p => p.1 == k)).map (fun p => p.2)

/-- `FormValidator.validateEmail`: `/^[^\s@]+@[^\s@]+\.[^\s@]+$/.test(email)`.
A character is admissible when it is neither whitespace nor `@`. -/
def okChar (c : Char) : Bool := !c.isWhitespace && c != '@'

/-- Split at the first `@`, or `none` when the string has no `@`. -/
def splitAtFirstAmp : List Char → Option (List Char × List Char)
  | [] => none
  | c :: rest =>
    if c = '@' then some ([], rest)
    else match splitAtFirstAmp rest with
      | some (a, b) => some (c :: a, b)
      | none => none

/-- The regex `^[^\s@]+@[^\s@]+\.[^\s@]+$` matches exactly when the string
splits at its unique `@` into a non-empty admissible local part and an
admissible remainder containing a `.` that is neither its first nor its
last character (the two `[^\s@]+` groups around `\.` may themselves
contain dots, so only an interior dot is required). -/
def validateEmail (email : String) : Bool :=
  match splitAtFirstAmp email.data with
  | none => false
  | some (lp, rest) =>
    !lp.isEmpty && lp.all okChar && rest.all okChar &&
      ((rest.drop 1).dropLast.contains '.')

/-- JS `String.prototype.trim`: drop whitespace from both ends
(modelled on the character list). -/
def trimChars (cs : List Char) : List Char :=
  ((cs.dropWhile Char.isWhitespace).reverse.dropWhile Char.isWhitespace).reverse

/-- `FormValidator.validateRequired`: `value.trim().length > 0`. -/
def validateRequired (value : String) : Bool :=
  (trimChars value.data).length > 0

/-- The body of `FormValidator.validate`'s loop for one `[fieldName, value]`
entry: the email-format check (only for the field named `email`) followed
by the required check, each assigning into `errors`. -/
def validateStep (errors : List (String × String)) (field : String × String) :
    List (String × String) :=
  let errors1 :=
    if field.1 == "email" then
      if validateEmail field.2 then errors
      else setErr errors field.1 "Invalid email format"
    else errors
  if validateRequired field.2 then errors1
  else setErr errors1 field.1 "This field is required"

/-- A small concrete cart reached through the public operations, used by
concrete witness statements: one "A" item and one "B" item. -/
def demoCart : CartState :=
  addItem (addItem freshCart (mkProduct "A" "$1")) (mkProduct "B" "$2")

/-- The rational the parser model produces for the sample price text
`199.99` (extracted from the parser itself, so concrete statements can
name it without re-normalising the arithmetic). -/
def lampPrice : ℚ := (parseFloatJs "199.99").getD 0

/-- The result object of `FormValidator.validate`. -/
structure ValidationResult where
  isValid : Bool
  errors : List (String × String)
deriving DecidableEq, Repr

/-- `FormValidator.validate(formData)`: fold the per-field checks over the
entries in object-key order; `isValid` iff the errors object stayed empty. -/
def validate (formData : List (String × String)) : ValidationResult :=
  let errors := formData.foldl validateStep []
  { isValid := errors.isEmpty, errors := errors }

/-! ### Helper lemmas about the cart embedding -/

theorem jadd_none_right (t : JsNum) : jadd t none = none := by
  cases t <;> rfl

theorem jmul_none_left (t : JsNum) : jmul none t = none := by
  cases t <;> rfl

theorem calculateTotal_append_one (l : List CartItem) (x : CartItem) :
    calculateTotal (l ++ [x]) =
      jadd (calculateTotal l) (jmul (parseFloatJs x.price) (some (x.quantity : ℚ))) := by
  simp [calculateTotal, List.foldl_append]

theorem addItem_items_of_not_mem (c : CartState) (p : Product)
    (h : ∀ item ∈ c.items, item.name ≠ p.name) :
    (addItem c p).items =
      c.items ++ [{ name := p.name, price := p.price, quantity := 1 }] := by
  have hfind : c.items.find? (fun item => item.name == p.name) = none := by
    rw [List.find?_eq_none]
    intro x hx
    simpa using h x hx
  simp [addItem, hfind]

theorem addItem_items_of_mem (c : CartState) (p : Product)
    (h : ∃ item ∈ c.items, item.name = p.name) :
    (addItem c p).items = bumpFirst p.name c.items := by
  have hfind : (c.items.find? (fun item => item.name == p.name)).isSome := by
    rw [List.find?_isSome]
    obtain ⟨x, hx, hn⟩ := h
    exact ⟨x, hx, by simpa using hn⟩
  simp [addItem, hfind]

theorem addItem_totalPrice (c : CartState) (p : Product) :
    (addItem c p).totalPrice = calculateTotal (addItem c p).items := rfl

theorem removeItem_items (c : CartState) (n : String) :
    (removeItem c n).items = c.items.filter (fun item => item.name != n) := rfl

theorem bumpFirst_map_name (n : String) (l : List CartItem) :
    (bumpFirst n l).map (fun item => item.name) = l.map (fun item => item.name) := by
  induction l with
  | nil => rfl
  | cons a t ih => by_cases h : a.name = n <;> simp [bumpFirst, h, ih]

theorem bumpFirst_map_name_price (n : String) (l : List CartItem) :
    (bumpFirst n l).map (fun item => (item.name, item.price)) =
      l.map (fun item => (item.name, item.price)) := by
  induction l with
  | nil => rfl
  | cons a t ih => by_cases h : a.name = n <;> simp [bumpFirst, h, ih]

theorem bumpFirst_quantity (n : String) (l : List CartItem)
    (h : ∀ item ∈ l, 1 ≤ item.quantity) :
    ∀ item ∈ bumpFirst n l, 1 ≤ item.quantity := by
  induction l with
  | nil => simp [bumpFirst]
  | cons a t ih =>
    intro item hitem
    by_cases ha : a.name = n
    · simp only [bumpFirst, if_pos ha, List.mem_cons] at hitem
      rcases hitem with h1 | h2
      · subst h1; exact Nat.le_add_left 1 a.quantity
      · exact h item (List.mem_cons_of_mem a h2)
    · simp only [bumpFirst, if_neg ha, List.mem_cons] at hitem
      rcases hitem with h1 | h2
      · rw [h1]; exact h a (List.mem_cons_self a t)
      · exact ih (fun x hx => h x (List.mem_cons_of_mem a hx)) item h2

theorem bumpFirst_append (n : String) (l : List CartItem) (x : CartItem)
    (hx : x.name = n) (h : ∀ item ∈ l, item.name ≠ n) :
    bumpFirst n (l ++ [x]) = l ++ [{ x with quantity := x.quantity + 1 }] := by
  induction l with
  | nil => simp [bumpFirst, hx]
  | cons a t ih =>
    have ha : a.name ≠ n := h a (List.mem_cons_self a t)
    simp only [List.cons_append, bumpFirst, if_neg ha, List.cons.injEq, true_and]
    exact ih (fun item hit => h item (List.mem_cons_of_mem a hit))

/-! ### Claim theorems about the cart -/

/-- C2: after every finite sequence of `Cart.addItem` / `Cart.removeItem`
calls starting from a fresh cart, the stored `totalPrice` equals
Σ `unitPrice × quantity` recomputed from the current items list
(`calculateTotal`, with `unitPrice = parseFloat(price)`) — the stored
total never drifts from the derived total. -/
theorem cart_total_never_drifts (ops : List CartOp) :
    (runOps freshCart ops).totalPrice = calculateTotal (runOps freshCart ops).items := by
  suffices h : ∀ c : CartState, c.totalPrice = calculateTotal c.items →
      (runOps c ops).totalPrice = calculateTotal (runOps c ops).items from
    h freshCart rfl
  induction ops with
  | nil => intro c hc; exact hc
  | cons op t ih =>
    intro c _hc
    have hstep : (applyOp c op).totalPrice = calculateTotal (applyOp c op).items := by
      cases op with
      | add p => rfl
      | remove n => rfl
    exact ih (applyOp c op) hstep

/-- C9: every cart operation (`addItem`, `removeItem`, `clearCart`)
preserves the invariant that the items list holds at most one item per
distinct name and that every quantity is at least 1. -/
theorem cart_ops_preserve_invariant (c : CartState) (p : Product) (n : String) :
    (CartInv c.items → CartInv (addItem c p).items) ∧
    (CartInv c.items → CartInv (removeItem c n).items) ∧
    CartInv (clearCart c).items := by
  refine ⟨?_, ?_, ?_⟩
  · rintro ⟨hnodup, hqty⟩
    by_cases hex : ∃ item ∈ c.items, item.name = p.name
    · rw [addItem_items_of_mem c p hex]
      exact ⟨by rw [bumpFirst_map_name]; exact hnodup,
        bumpFirst_quantity p.name c.items hqty⟩
    · push_neg at hex
      rw [addItem_items_of_not_mem c p hex]
      constructor
      · rw [List.map_append]
        refine List.Nodup.append hnodup (List.nodup_singleton _) ?_
        intro a ha hb
        simp only [List.map_cons, List.map_nil, List.mem_singleton] at hb
        obtain ⟨item, hitem, hname⟩ := List.mem_map.mp ha
        exact hex item hitem (hname.trans hb)
      · intro item hitem
        rcases List.mem_append.mp hitem with h1 | h2
        · exact hqty item h1
        · rw [List.mem_singleton.mp h2]
  · rintro ⟨hnodup, hqty⟩
    rw [removeItem_items]
    exact ⟨hnodup.sublist ((List.filter_sublist c.items).map _),
      fun item hitem => hqty item (List.mem_of_mem_filter hitem)⟩
  · exact ⟨List.nodup_nil, by simp [clearCart]⟩

/-- C10: the items list stays in first-insertion order — `addItem` on an
existing name changes only that item's quantity (the name/price sequence,
hence the order, is unchanged), `addItem` on a new name appends at the
end, and `removeItem` keeps the remaining items in relative order. -/
theorem cart_keeps_insertion_order (c : CartState) (p : Product) (n : String) :
    ((∃ item ∈ c.items, item.name = p.name) →
      (addItem c p).items.map (fun item => (item.name, item.price)) =
        c.items.map (fun item => (item.name, item.price))) ∧
    ((∀ item ∈ c.items, item.name ≠ p.name) →
      (addItem c p).items =
        c.items ++ [{ name := p.name, price := p.price, quantity := 1 }]) ∧
    List.Sublist (removeItem c n).items c.items := by
  refine ⟨?_, ?_, ?_⟩
  · intro hex
    rw [addItem_items_of_mem c p hex]
    exact bumpFirst_map_name_price p.name c.items
  · intro hnone
    exact addItem_items_of_not_mem c p hnone
  · rw [removeItem_items]
    exact List.filter_sublist c.items

/-- C5: starting from a cart with no item named `n`, adding `n` twice
(second call possibly with a different price string) yields exactly one
item named `n`, stored with quantity 2 and the first-seen price; with an
otherwise empty cart the stored total is `2 × p` where `p` is the parsed
first price. -/
theorem addItem_twice_aggregates (c : CartState) (n s s' : String) (q : ℚ)
    (hfresh : ∀ item ∈ c.items, item.name ≠ n) (hp : parseFloatJs s = some q) :
    ((addItem (addItem c ⟨n, s⟩) ⟨n, s'⟩).items =
        c.items ++ [⟨n, s, 2⟩]) ∧
    ((addItem (addItem c ⟨n, s⟩) ⟨n, s'⟩).items.filter
        (fun item => item.name == n) = [⟨n, s, 2⟩]) ∧
    (c.items = [] →
      (addItem (addItem c ⟨n, s⟩) ⟨n, s'⟩).totalPrice = some (2 * q)) := by
  have hitems1 : (addItem c ⟨n, s⟩).items = c.items ++ [⟨n, s, 1⟩] :=
    addItem_items_of_not_mem c ⟨n, s⟩ hfresh
  have hex : ∃ item ∈ (addItem c ⟨n, s⟩).items, item.name = (⟨n, s'⟩ : Product).name := by
    rw [hitems1]
    exact ⟨⟨n, s, 1⟩, by simp, rfl⟩
  have hitems2 : (addItem (addItem c ⟨n, s⟩) ⟨n, s'⟩).items = c.items ++ [⟨n, s, 2⟩] := by
    rw [addItem_items_of_mem _ _ hex, hitems1]
    exact bumpFirst_append n c.items ⟨n, s, 1⟩ rfl hfresh
  refine ⟨hitems2, ?_, ?_⟩
  · rw [hitems2, List.filter_append]
    have hnil : c.items.filter (fun item => item.name == n) = [] := by
      rw [List.filter_eq_nil_iff]
      intro item hitem
      simpa using hfresh item hitem
    rw [hnil]
    simp
  · intro hcempty
    rw [addItem_totalPrice, hitems2, hcempty]
    simp only [List.nil_append]
    show calculateTotal [⟨n, s, 2⟩] = some (2 * q)
    simp [calculateTotal, hp, jadd, jmul]
    ring

/-- Witness for C5 at a concrete input: the spec scenario of adding
"Lamp" at `199.99` twice (the second time at a different price). -/
theorem addItem_twice_aggregates_witness :
    ((addItem (addItem freshCart ⟨"Lamp", "199.99"⟩) ⟨"Lamp", "50"⟩).items =
        freshCart.items ++ [⟨"Lamp", "199.99", 2⟩]) ∧
    ((addItem (addItem freshCart ⟨"Lamp", "199.99"⟩) ⟨"Lamp", "50"⟩).items.filter
        (fun item => item.name == "Lamp") = [⟨"Lamp", "199.99", 2⟩]) ∧
    (addItem (addItem freshCart ⟨"Lamp", "199.99"⟩) ⟨"Lamp", "50"⟩).totalPrice =
        some (2 * lampPrice) := by
  have h := addItem_twice_aggregates freshCart "Lamp" "199.99" "50" lampPrice
    (by decide) rfl
  exact ⟨h.1, h.2.1, h.2.2 rfl⟩

/-- C1 counterexample: with a cart holding one item "Lamp" at price 5,
adding "Vase" whose price text "N/A" is non-numeric after stripping does
NOT leave the total at the sum over the other items (5): `parseFloat`
yields `NaN`, which poisons the whole stored total. -/
theorem cart_malformed_price_counterexample :
    (addItem (addItem freshCart (mkProduct "Lamp" "$5")) (mkProduct "Vase" "N/A")).totalPrice
      ≠ (addItem freshCart (mkProduct "Lamp" "$5")).totalPrice := by decide

/-- C1 amended: when `handleAddToCart` passes a product whose price text
is non-numeric after stripping (`parseFloat` of the cleaned string is
`NaN`) and no item of that name is already in the cart, `Cart.addItem`
raises no error but stores `totalPrice = NaN` (`none`) — the malformed
price is not treated as 0. -/
theorem addItem_malformed_price_total_nan (c : CartState) (productName priceText : String)
    (hbad : parseFloatJs (stripPrice priceText) = none)
    (hnew : ∀ item ∈ c.items, item.name ≠ productName) :
    (addItem c (mkProduct productName priceText)).totalPrice = none := by
  have hitems := addItem_items_of_not_mem c (mkProduct productName priceText) hnew
  rw [addItem_totalPrice, hitems, calculateTotal_append_one]
  show jadd _ (jmul (parseFloatJs (stripPrice priceText)) _) = none
  rw [hbad, jmul_none_left, jadd_none_right]

/-- Witness for the amended C1 at a concrete input: price text "N/A"
strips to the empty string, which parses to `NaN`. -/
theorem addItem_malformed_price_total_nan_witness :
    (parseFloatJs (stripPrice "N/A") = none) ∧
    (addItem freshCart (mkProduct "Vase" "N/A")).totalPrice = none :=
  ⟨by decide,
    addItem_malformed_price_total_nan freshCart "Vase" "N/A" (by decide) (by decide)⟩

/-- Witness for C9 at a concrete input: the invariant is checked before
and after each operation on a two-item cart. -/
theorem cart_ops_preserve_invariant_witness :
    CartInv (addItem demoCart (mkProduct "A" "$7")).items ∧
    CartInv (removeItem demoCart "A").items ∧
    CartInv (clearCart demoCart).items :=
  ⟨(cart_ops_preserve_invariant demoCart (mkProduct "A" "$7") "A").1 (by decide),
    (cart_ops_preserve_invariant demoCart (mkProduct "A" "$7") "A").2.1 (by decide),
    (cart_ops_preserve_invariant demoCart (mkProduct "A" "$7") "A").2.2⟩

/-- Witness for C10 at a concrete input: re-adding "A" keeps the
name/price sequence, adding new "C" appends, removing keeps order. -/
theorem cart_keeps_insertion_order_witness :
    ((addItem demoCart (mkProduct "A" "$7")).items.map (fun item => (item.name, item.price)) =
        demoCart.items.map (fun item => (item.name, item.price))) ∧
    ((addItem demoCart (mkProduct "C" "$3")).items =
        demoCart.items ++ [⟨(mkProduct "C" "$3").name, (mkProduct "C" "$3").price, 1⟩]) ∧
    List.Sublist (removeItem demoCart "A").items demoCart.items :=
  ⟨(cart_keeps_insertion_order demoCart (mkProduct "A" "$7") "A").1 (by decide),
    (cart_keeps_insertion_order demoCart (mkProduct "C" "$3") "A").2.1 (by decide),
    (cart_keeps_insertion_order demoCart (mkProduct "A" "$7") "A").2.2⟩

/-! ### Claim theorems about the notification centre -/

/-- C7: `remove(id)` deletes every record whose id matches; when no record
with that id exists it leaves the list unchanged (so a stale auto-removal
timer firing after an explicit dismiss is a harmless no-op); it is
idempotent; and `show` on a fresh component followed immediately by
dismissing the new record's id leaves zero live records. -/
theorem notification_remove_idempotent (st : NotificationState) (i now : ℕ)
    (m k : String) (d : ℕ) :
    ((removeNotification st i).notifications =
      st.notifications.filter (fun n => n.id != i)) ∧
    ((∀ n ∈ st.notifications, n.id ≠ i) → removeNotification st i = st) ∧
    (removeNotification (removeNotification st i) i = removeNotification st i) ∧
    ((removeNotification (showNotification notifInit now m k d) now).notifications = []) := by
  refine ⟨rfl, ?_, ?_, ?_⟩
  · intro h
    cases st with
    | mk l =>
      simp only [removeNotification, NotificationState.mk.injEq]
      apply List.filter_eq_self.mpr
      intro n hn
      simpa using h n hn
  · simp [removeNotification, List.filter_filter]
  · simp [removeNotification, showNotification, notifInit, mkNotification]

/-- Witness for C7 at a concrete input: removing an absent id (7) from a
one-record list leaves the state unchanged. -/
theorem notification_remove_idempotent_witness :
    removeNotification ⟨[⟨1, "a", "info", 1⟩]⟩ 7 = ⟨[⟨1, "a", "info", 1⟩]⟩ :=
  (notification_remove_idempotent ⟨[⟨1, "a", "info", 1⟩]⟩ 7 0 "" "" 0).2.1 (by decide)

/-- C3 counterexample: two `show` calls (via the success/error wrappers)
within the same millisecond — `Date.now()` returning 5 both times —
create two distinct live records sharing the id 5, so ids are not unique. -/
theorem notification_id_collision_counterexample :
    ((error (success notifInit 5 "a" 100) 5 "b" 100).notifications =
      [⟨5, "a", "success", 5⟩, ⟨5, "b", "error", 5⟩]) ∧
    (⟨5, "a", "success", 5⟩ : NotificationRecord) ≠ ⟨5, "b", "error", 5⟩ ∧
    (⟨5, "a", "success", 5⟩ : NotificationRecord).id =
      (⟨5, "b", "error", 5⟩ : NotificationRecord).id :=
  ⟨rfl, by decide, rfl⟩

/-- C3 amended: each record's id is the `Date.now()` value at its
creation, so two records created at distinct `Date.now()` values have
distinct ids; records created within the same millisecond share an id. -/
theorem notification_ids_distinct_at_distinct_times (st : NotificationState)
    (t1 t2 : ℕ) (m1 k1 m2 k2 : String) (d : ℕ) (h : t1 ≠ t2) :
    ((showNotification st t1 m1 k1 d).notifications =
      st.notifications ++ [mkNotification t1 m1 k1]) ∧
    (mkNotification t1 m1 k1).id ≠ (mkNotification t2 m2 k2).id :=
  ⟨rfl, h⟩

/-- Witness for the amended C3 at concrete times 5 and 6. -/
theorem notification_ids_distinct_at_distinct_times_witness :
    ((showNotification notifInit 5 "a" "info" 3000).notifications =
      notifInit.notifications ++ [mkNotification 5 "a" "info"]) ∧
    (mkNotification 5 "a" "info").id ≠ (mkNotification 6 "b" "error").id :=
  notification_ids_distinct_at_distinct_times notifInit 5 6 "a" "info" "b" "error" 3000
    (by decide)

/-! ### Claim theorems about the state container and its snapshot copy -/

/-- C8: `setState` replaces the snapshot by the shallow merge — every key
present in the update takes the update's value, every other key keeps its
previous value — and then synchronously produces the notification
fan-out: each registered subscriber, in subscription order, receives the
complete new snapshot; `subscribe` registers in call order.  Both
functions are total, so there are no error conditions. -/
theorem setState_shallow_merge_notifies {V O : Type} (c : BaseComponent V O)
    (newState : String → Option V) (observer : O) :
    (∀ k v, newState k = some v → (setState c newState).1.state k = some v) ∧
    (∀ k, newState k = none → (setState c newState).1.state k = c.state k) ∧
    ((setState c newState).1.observers = c.observers) ∧
    ((setState c newState).2 =
      c.observers.map (fun ob => (ob, (setState c newState).1.state))) ∧
    ((subscribe c observer).observers = c.observers ++ [observer]) := by
  refine ⟨?_, ?_, rfl, rfl, rfl⟩
  · intro k v hk
    show (match newState k with | some v => some v | none => c.state k) = some v
    rw [hk]
  · intro k hk
    show (match newState k with | some v => some v | none => c.state k) = c.state k
    rw [hk]

/-- Witness for C8 at a concrete component: the update's key `y` wins,
the untouched key `x` is preserved, and both observers are notified in
order with the new snapshot. -/
theorem setState_shallow_merge_notifies_witness :
    ((setState demoComponent demoUpdate).1.state "y" = some 2) ∧
    ((setState demoComponent demoUpdate).1.state "x" = demoComponent.state "x") ∧
    ((setState demoComponent demoUpdate).1.observers = demoComponent.observers) ∧
    ((setState demoComponent demoUpdate).2 =
      demoComponent.observers.map (fun ob => (ob, (setState demoComponent demoUpdate).1.state))) ∧
    ((subscribe demoComponent 2).observers = demoComponent.observers ++ [2]) := by
  have h := setState_shallow_merge_notifies demoComponent demoUpdate 2
  exact ⟨h.1 "y" 2 rfl, h.2.1 "x" rfl, h.2.2.1, h.2.2.2.1, h.2.2.2.2⟩

/-- C4 counterexample: the snapshot `getState` returns shares the items
array by reference (shallow copy), so pushing onto the array reached
through the returned snapshot changes what a later `getState` reader
observes — at the concrete state `cartSnap0` and heap `emptyHeap` the
observed items list changes from `[]` to `[lampItem]`. -/
theorem getState_shallow_copy_counterexample :
    (getStateCopy cartSnap0 "items" = some (JVal.arrRef 0)) ∧
    readItems (heapPush emptyHeap 0 lampItem) cartSnap0 ≠ readItems emptyHeap cartSnap0 :=
  ⟨rfl, by decide⟩

/-- C4 amended: `getState` returns a fresh top-level object with the very
same entries (`getStateCopy s = s` pointwise), so nested values such as
the published items array are shared by reference: pushing onto the array
reached through the returned snapshot appends to the items list every
later reader of the component's state observes. -/
theorem getState_top_level_copy_shares_nested (s : String → Option JVal)
    (h : Heap) (a : ℕ) (x : CartItem)
    (hitems : getStateCopy s "items" = some (JVal.arrRef a)) :
    (∀ k, getStateCopy s k = s k) ∧
    readItems (heapPush h a x) s = readItems h s ++ [x] := by
  refine ⟨fun k => rfl, ?_⟩
  have hs : s "items" = some (JVal.arrRef a) := hitems
  simp [readItems, hs, heapPush]

/-- Witness for the amended C4 at the concrete aliasing scenario. -/
theorem getState_top_level_copy_shares_nested_witness :
    (getStateCopy cartSnap0 "items" = cartSnap0 "items") ∧
    readItems (heapPush emptyHeap 0 lampItem) cartSnap0 =
      readItems emptyHeap cartSnap0 ++ [lampItem] :=
  ⟨(getState_top_level_copy_shares_nested cartSnap0 emptyHeap 0 lampItem rfl).1 "items",
    (getState_top_level_copy_shares_nested cartSnap0 emptyHeap 0 lampItem rfl).2⟩

/-! ### Claim theorems about the form validator -/

theorem lookupField_setErr (e : List (String × String)) (k v : String) :
    lookupField (setErr e k v) k = some v := by
  induction e with
  | nil => simp [setErr, lookupField]
  | cons p t ih =>
    by_cases h : p.1 = k
    · simp [setErr, h, lookupField]
    · have hb : (p.1 == k) = false := by simpa using h
      simp [setErr, h, lookupField, List.find?, hb] at ih ⊢
      exact ih

/-- C6: `validate` on the mapping `email ↦ "", name ↦ "x"` returns
`isValid = false` with exactly the required-field message for `email` and
no entry for `name`; in general, whenever the field named `email` fails
both the email-format check and the non-empty check, the required-field
message overwrites the email-format message (last check wins). -/
theorem validate_email_required_overwrites (errors : List (String × String)) (v : String)
    (hfmt : validateEmail v = false) (hreq : validateRequired v = false) :
    (validate [("email", ""), ("name", "x")] =
      ⟨false, [("email", "This field is required")]⟩) ∧
    lookupField (validateStep errors ("email", v)) "email" =
      some "This field is required" := by
  constructor
  · decide
  · simp only [validateStep, hfmt, hreq]
    simp only [beq_self_eq_true, if_true, Bool.false_eq_true, if_false]
    exact lookupField_setErr _ "email" _

/-- Witness for C6 at the concrete input of the claim: the empty email
value fails both checks and ends with the required-field message. -/
theorem validate_email_required_overwrites_witness :
    (validate [("email", ""), ("name", "x")] =
      ⟨false, [("email", "This field is required")]⟩) ∧
    lookupField (validateStep [] ("email", "")) "email" =
      some "This field is required" :=
  ⟨(validate_email_required_overwrites [] "" (by decide) (by decide)).1,
    (validate_email_required_overwrites [] "" (by decide) (by decide)).2⟩
